import Mathlib

/-!
# Verification of `enterprise_extensions/pipe/data_class.py`

A shallow embedding of the configuration-driven object-graph builder
(`RunSettings` and its helper functions) together with proofs of the
specification's claims about it.

Python strings are modelled as Lean `String`s (and, for the case-folding
operations, as lists of code points); Python dictionaries are modelled as
association lists with insertion-order semantics (`lookupKey` finds the first
binding, `setKey` overwrites in place or appends); Python exceptions are
modelled by the `PyErr` enumeration and `Except` results; `numpy` float
parsing is modelled over `Rat` (every decimal literal appearing in the claims
is exactly representable).
-/

set_option maxHeartbeats 1000000

namespace EnterprisePipe

/-- Python exceptions that the embedded code can raise. -/
inductive PyErr where
  | typeError
  | valueError
  | keyError
  | indexError
  | attributeError
deriving DecidableEq, Repr

/-- Python runtime values flowing through `RunSettings`: scalars, strings,
numeric vectors (`np.ndarray`), opaque constructed objects (custom class
instances / function returns), and nested dictionaries. -/
inductive PyVal where
  | int (n : Int)
  | float (q : Rat)
  | str (s : String)
  | bool (b : Bool)
  | arr (xs : List Rat)
  | obj (tag : String)
  | dict (items : List (String × PyVal))

/-- Declared parameter types that `apply_types` can branch on:
`np.ndarray`, `bool`, and the ordinary single-argument converters. -/
inductive PyType where
  | ndarray
  | bool
  | int
  | float
  | str
deriving DecidableEq, Repr

/-! ## Association-list model of Python dictionaries -/

/-- Boolean membership in a list of strings (Python `in` on a list of keys). -/
def memB (k : String) : List String → Bool
  | [] => false
  | x :: rest => (x == k) || memB k rest

/-- `d[k]` / `d.get(k)` : first binding of `k` in the association list. -/
def lookupKey {α : Type _} : List (String × α) → String → Option α
  | [], _ => none
  | (k₀, v₀) :: rest, k => if k₀ = k then some v₀ else lookupKey rest k

/-- `d[k] = v` : overwrite the binding for `k` in place, or append a new one
(Python dictionaries keep the original insertion position on overwrite). -/
def setKey {α : Type _} : List (String × α) → String → α → List (String × α)
  | [], k, v => [(k, v)]
  | (k₀, v₀) :: rest, k, v =>
    if k₀ = k then (k, v) :: rest else (k₀, v₀) :: setKey rest k v

/-! ## Python string primitives -/

/-- `pat` is a prefix of `l` (character lists). -/
def prefixMatch : List Char → List Char → Bool
  | [], _ => true
  | _ :: _, [] => false
  | a :: as, b :: bs => (a == b) && prefixMatch as bs

/-- `pat in l` : substring containment on character lists. -/
def containsSub (pat : List Char) : List Char → Bool
  | [] => pat.isEmpty
  | c :: rest => prefixMatch pat (c :: rest) || containsSub pat rest

/-- Python `pat in s` (substring containment). -/
def strContains (s pat : String) : Bool :=
  containsSub pat.data s.data

/-- Worker for `pyReplace`: leftmost, non-overlapping replacement of `pat`
by `rep`.  `fuel` is an upper bound on the number of characters consumed;
calling it with `fuel = l.length` makes it total and structural. -/
def replaceFuel (pat rep : List Char) : Nat → List Char → List Char
  | _, [] => []
  | 0, l => l
  | n + 1, c :: rest =>
    if prefixMatch pat (c :: rest) && !pat.isEmpty then
      rep ++ replaceFuel pat rep n (List.drop (pat.length - 1) rest)
    else
      c :: replaceFuel pat rep n rest

/-- Python `s.replace(pat, rep)` (all occurrences, leftmost first). -/
def pyReplace (s pat rep : String) : String :=
  ⟨replaceFuel pat.data rep.data s.data.length s.data⟩

/-- Python `s.split(sep)` on character lists (single-character separator). -/
def splitCharL (sep : Char) : List Char → List (List Char)
  | [] => [[]]
  | c :: rest =>
    match splitCharL sep rest with
    | [] => [[]]
    | cur :: parts => if c = sep then [] :: cur :: parts else (c :: cur) :: parts

/-- Python `s.split(sep)`. -/
def pySplit (s : String) (sep : Char) : List String :=
  (splitCharL sep s.data).map (fun l => String.mk l)

/-- Python `sep.join(xs)` on character lists. -/
def joinWith (sep : List Char) : List (List Char) → List Char
  | [] => []
  | [x] => x
  | x :: rest => x ++ sep ++ joinWith sep rest

/-- Python `sep.join(xs)`. -/
def pyJoin (sep : String) (xs : List String) : String :=
  ⟨joinWith sep.data (xs.map String.data)⟩

/-! ## Case folding over code points (ASCII-faithful model of Python
`str.lower` / `str.capitalize`; all strings involved in the claims are
ASCII). -/

/-- Python `chr.lower()` at the code-point level (ASCII letters). -/
def lowerCode (n : Nat) : Nat :=
  if 65 ≤ n ∧ n ≤ 90 then n + 32 else n

/-- Python `chr.upper()` at the code-point level (ASCII letters). -/
def upperCode (n : Nat) : Nat :=
  if 97 ≤ n ∧ n ≤ 122 then n - 32 else n

/-- The code points of a string. -/
def strCodes (s : String) : List Nat :=
  s.data.map Char.toNat

/-- Python `s.capitalize()`: first character uppercased, the rest lowercased. -/
def capitalizeCodes : List Nat → List Nat
  | [] => []
  | c :: rest => upperCode c :: rest.map lowerCode

/-- Python `s.lower()`, as code points. -/
def lowerStrCodes (s : String) : List Nat :=
  (strCodes s).map lowerCode

/-- The boolean coercion of `RunSettings.apply_types` (lines 192-194):
`dictionary[key].lower().capitalize() == "True"`. -/
def pyBoolCoerce (s : String) : Bool :=
  capitalizeCodes (lowerStrCodes s) == strCodes "True"

/-! ## Python numeric parsing (`float(...)` / `np.float(...)` / `int(...)`),
modelled over `Rat` for decimal literals.  `np.float` is the builtin `float`.
Only the plain decimal grammar (sign, digits, optional point, optional
exponent) is modelled; `inf` / `nan` / surrounding whitespace are not used by
the configuration values the claims are about. -/

/-- Value of a digit string (most significant first). -/
def digitsVal (l : List Char) : Nat :=
  l.foldl (fun a c => 10 * a + (c.toNat - 48)) 0

/-- The exponent part after `e`/`E`: optional sign then at least one digit. -/
def parseExpTail : List Char → Option Int
  | [] => none
  | '+' :: r => if !r.isEmpty && r.all Char.isDigit then some (digitsVal r : Int) else none
  | '-' :: r => if !r.isEmpty && r.all Char.isDigit then some (-(digitsVal r : Int)) else none
  | l => if l.all Char.isDigit then some (digitsVal l : Int) else none

/-- Unsigned decimal float: `digits [. digits] [e exp]` or `. digits [e exp]`,
with at least one mantissa digit. -/
def parseFloatCore (l : List Char) : Option Rat :=
  let ip := l.takeWhile Char.isDigit
  let rest1 := l.dropWhile Char.isDigit
  match rest1 with
  | [] => if ip.isEmpty then none else some ((digitsVal ip : Nat) : Rat)
  | '.' :: rest2 =>
    let fp := rest2.takeWhile Char.isDigit
    let rest3 := rest2.dropWhile Char.isDigit
    if ip.isEmpty && fp.isEmpty then none
    else
      let mant : Rat := (digitsVal ip : Rat) + (digitsVal fp : Rat) / ((10 : Rat) ^ fp.length)
      match rest3 with
      | [] => some mant
      | 'e' :: r => (parseExpTail r).map (fun k => mant * (10 : Rat) ^ k)
      | 'E' :: r => (parseExpTail r).map (fun k => mant * (10 : Rat) ^ k)
      | _ => none
  | 'e' :: r =>
    if ip.isEmpty then none
    else (parseExpTail r).map (fun k => ((digitsVal ip : Nat) : Rat) * (10 : Rat) ^ k)
  | 'E' :: r =>
    if ip.isEmpty then none
    else (parseExpTail r).map (fun k => ((digitsVal ip : Nat) : Rat) * (10 : Rat) ^ k)
  | _ => none

/-- Signed decimal float on character lists. -/
def parseFloatL : List Char → Option Rat
  | '+' :: l => parseFloatCore l
  | '-' :: l => (parseFloatCore l).map Neg.neg
  | l => parseFloatCore l

/-- Python `float(s)` (`ValueError` modelled by `none`). -/
def pyFloatParse (s : String) : Option Rat :=
  parseFloatL s.data

/-- Python `int(s)` (`ValueError` modelled by `none`). -/
def pyIntParse (s : String) : Option Int :=
  match s.data with
  | '+' :: l => if !l.isEmpty && l.all Char.isDigit then some (digitsVal l : Int) else none
  | '-' :: l => if !l.isEmpty && l.all Char.isDigit then some (-(digitsVal l : Int)) else none
  | l => if !l.isEmpty && l.all Char.isDigit then some (digitsVal l : Int) else none

/-- Python `value.split(',')`, as character lists. -/
def splitOnComma (l : List Char) : List (List Char) :=
  splitCharL ',' l

/-- Parse every comma-separated component as a float, failing on the first
`ValueError` (the list comprehension of line 191). -/
def parseFloatListE : List (List Char) → Except PyErr (List Rat)
  | [] => .ok []
  | x :: rest =>
    match parseFloatL x with
    | none => .error .valueError
    | some q =>
      match parseFloatListE rest with
      | .ok qs => .ok (q :: qs)
      | .error e => .error e

/-- Line 191: `np.array([np.float(x) for x in value.split(',')])`. -/
def coerceNdarray (value : String) : Except PyErr (List Rat) :=
  parseFloatListE (splitOnComma value.data)

/-! ## `RunSettings.apply_types` (lines 156-198) -/

/-- The reference tables `apply_types` reads (the live registries owned by
`RunSettings` at the time the section is processed). -/
structure CoercerState where
  custom_function_return : List (String × PyVal)
  custom_classes : List (String × PyVal)

/-- The `else` arm of lines 195-196 (`type_dictionary[key](value)`), made total
over all `PyType`s; the `ndarray` and `bool` types never reach this arm in
`apply_types` and are given their dedicated coercions here as well. -/
def typeApplyOther : PyType → String → Except PyErr PyVal
  | .int, v =>
    match pyIntParse v with
    | some n => .ok (.int n)
    | none => .error .valueError
  | .float, v =>
    match pyFloatParse v with
    | some q => .ok (.float q)
    | none => .error .valueError
  | .str, v => .ok (.str v)
  | .ndarray, v => (coerceNdarray v).map .arr
  | .bool, v => .ok (.bool (pyBoolCoerce v))

/-- The per-key loop of `apply_types` (lines 169-197), carrying
`out_dictionary` as the accumulator.  `evalf` models `eval` (the
`FUNCTION_CALL:` directive, line 182): an oracle from the expression text to a
value.  A failed lookup in `custom_function_return` / `custom_classes` is a
Python `KeyError` (the spec's `UnresolvedReferenceError`). -/
def applyTypesGo (st : CoercerState) (evalf : String → PyVal)
    (type_dictionary : List (String × PyType)) (exclude_keys : List String) :
    List (String × String) → List (String × PyVal) → Except PyErr (List (String × PyVal))
  | [], out => .ok out
  | (key, value) :: rest, out =>
    if memB key exclude_keys then
      applyTypesGo st evalf type_dictionary exclude_keys rest out
    else if strContains value "CUSTOM_FUNCTION_RETURN:" then
      match lookupKey st.custom_function_return (pyReplace value "CUSTOM_FUNCTION_RETURN:" "") with
      | some v => applyTypesGo st evalf type_dictionary exclude_keys rest (setKey out key v)
      | none => .error .keyError
    else if strContains value "CUSTOM_CLASS:" then
      match lookupKey st.custom_classes (pyReplace value "CUSTOM_CLASS:" "") with
      | some v => applyTypesGo st evalf type_dictionary exclude_keys rest (setKey out key v)
      | none => .error .keyError
    else if strContains value "FUNCTION_CALL:" then
      applyTypesGo st evalf type_dictionary exclude_keys rest
        (setKey out key (evalf (pyReplace value "FUNCTION_CALL:" "")))
    else
      match lookupKey type_dictionary key with
      | none => applyTypesGo st evalf type_dictionary exclude_keys rest out
      | some .ndarray =>
        match coerceNdarray value with
        | .ok xs => applyTypesGo st evalf type_dictionary exclude_keys rest (setKey out key (.arr xs))
        | .error e => .error e
      | some .bool =>
        applyTypesGo st evalf type_dictionary exclude_keys rest
          (setKey out key (.bool (pyBoolCoerce value)))
      | some t =>
        match typeApplyOther t value with
        | .ok v => applyTypesGo st evalf type_dictionary exclude_keys rest (setKey out key v)
        | .error e => .error e

/-- `RunSettings.apply_types(dictionary, type_dictionary, exclude_keys)`. -/
def apply_types (st : CoercerState) (evalf : String → PyVal)
    (dictionary : List (String × String)) (type_dictionary : List (String × PyType))
    (exclude_keys : List String) : Except PyErr (List (String × PyVal)) :=
  applyTypesGo st evalf type_dictionary exclude_keys dictionary []

/-! ## `RunSettings.update_from_dict` (lines 200-208) -/

/-- `update_from_dict(**kwargs)`: iterate the annotated fields; for each one
present in `kwargs`, try the field's declared type as a converter
(`dtype(kwargs[name])`); a `TypeError` is swallowed (`except TypeError: pass`)
and the unconverted value is assigned; any other exception propagates.  Keys
of `kwargs` that are not annotated fields are never touched.  `ann` is
`self.__annotations__` (field name to converter), `st` the record of field
values. -/
def update_from_dict {α : Type _} :
    List (String × (α → Except PyErr α)) → List (String × α) → List (String × α) →
    Except PyErr (List (String × α))
  | [], _, st => .ok st
  | (name, dtype) :: rest, kwargs, st =>
    match lookupKey kwargs name with
    | none => update_from_dict rest kwargs st
    | some v =>
      match dtype v with
      | .ok w => update_from_dict rest (setKey kwargs name w) (setKey st name w)
      | .error .typeError => update_from_dict rest kwargs (setKey st name v)
      | .error e => .error e

/-! ## `update_dictionary_with_subdictionary` (lines 32-42) -/

/-- The body of `update_dictionary_with_subdictionary(d, u)`: iterate the
items of `u`; a nested mapping is merged recursively into `d.get(k, {})`,
anything else overwrites `d[k]`.  A non-dictionary `d` facing a non-empty `u`
is the Python `AttributeError` / `TypeError` crash (`d.get` / `d[k] =` on a
non-mapping), modelled by `none`. -/
def mergeItems : PyVal → List (String × PyVal) → Option PyVal
  | d, [] => some d
  | d, (k, v) :: rest =>
    match d with
    | .dict ds =>
      match v with
      | .dict vs =>
        match mergeItems ((lookupKey ds k).getD (.dict [])) vs with
        | none => none
        | some v2 => mergeItems (.dict (setKey ds k v2)) rest
      | _ => mergeItems (.dict (setKey ds k v)) rest
    | _ => none
termination_by _ u => sizeOf u
decreasing_by all_goals simp_wf <;> omega

/-- `update_dictionary_with_subdictionary(d, u)` at the top level, where both
arguments are dictionaries (as at every call site). -/
def update_dictionary_with_subdictionary (d u : List (String × PyVal)) :
    Option (List (String × PyVal)) :=
  match mergeItems (.dict d) u with
  | some (.dict r) => some r
  | _ => none

/-- Keys are pairwise distinct (the invariant every Python dictionary has). -/
def keysNodupB : List String → Bool
  | [] => true
  | k :: rest => !memB k rest && keysNodupB rest

mutual

/-- A `PyVal` is well formed when every dictionary in it has pairwise
distinct keys — automatically true of every value a Python run produces. -/
def wfVal : PyVal → Bool
  | .dict ds => keysNodupB (ds.map Prod.fst) && wfList ds
  | _ => true

/-- All values of an association list are well formed. -/
def wfList : List (String × PyVal) → Bool
  | [] => true
  | (_, v) :: rest => wfVal v && wfList rest

end

/-! ## `RunSettings.load_pickled_pulsars` — noise-dictionary alias injection
(lines 222-225) -/

/-- Line 224: `par.split('_')[0] + '_basis_ecorr_' + '_'.join(par.split('_')[1:])`. -/
def ecorrAliasKey (par : String) : String :=
  ((pySplit par '_').headD "") ++ "_basis_ecorr_" ++ pyJoin "_" (pySplit par '_').tail

/-- Lines 222-225: for every key of the freshly loaded noise dictionary (the
key list is snapshotted before the loop) that contains `log10_ecorr` but not
`basis_ecorr`, insert the alias key with the same value. -/
def load_pickled_pulsars_noise_aliases {α : Type _} (noise_dict : List (String × α)) :
    List (String × α) :=
  (noise_dict.map Prod.fst).foldl
    (fun d par =>
      if strContains par "log10_ecorr" && !strContains par "basis_ecorr" then
        match lookupKey d par with
        | some v => setKey d (ecorrAliasKey par) v
        | none => d
      else d)
    noise_dict

/-! ## `RunSettings.update_from_file` — `function`-section dispatch
(lines 115-135) -/

/-- What `update_from_file` does with a section whose items contain a
`function` key. -/
inductive SectionAction where
  | customReturn
  | signalReturn
  | ptaReturn
  | attrError (msg : String)
deriving DecidableEq, Repr

/-- The exact message of the `AttributeError` raised on lines 132-135. -/
def function_missing_directive_msg : String :=
  "\x27function\x27 needs one of \x27custom_return=SOMETHING\x27 \x27signal_function=True\x27 \x27pta_function=True\x27 in .ini file"

/-- Lines 115-135: branch on which return-directive key is present among the
section's keys; raise `AttributeError` when none is. -/
def dispatch_function_section (config_file_items : List String) : SectionAction :=
  if memB "custom_return" config_file_items then .customReturn
  else if memB "signal_return" config_file_items then .signalReturn
  else if memB "pta_return" config_file_items then .ptaReturn
  else .attrError function_missing_directive_msg

/-! ## `RunSettings.create_pta_object_from_signals` — fragment summation
(lines 238-243) -/

/-- Line 239 followed by lines 240-241: the fragment list is the signal
collections extracted from the full-model (pta) factories, in registration
order, followed by the fragments returned by the direct signal factories, in
registration order. -/
def signal_collections_list {α : Type _} (ptaFrags sigFrags : List α) : List α :=
  ptaFrags ++ sigFrags

/-- Line 243: `sum(signal_collections[1:], signal_collections[0])`.
`op` is the fragment composition operator `+`.  Python `sum` with a start
value is a left fold; indexing an empty list raises `IndexError` (the spec's
`CompositionError`). -/
def create_pta_object_from_signals {α : Type _} (op : α → α → α)
    (ptaFrags sigFrags : List α) : Except PyErr α :=
  match signal_collections_list ptaFrags sigFrags with
  | [] => .error .indexError
  | h :: t => .ok (t.foldl op h)

/-! ## Helper lemmas on the dictionary model -/

theorem memB_eq_true_iff (k : String) (l : List String) : memB k l = true ↔ k ∈ l := by
  induction l with
  | nil => simp [memB]
  | cons x rest ih =>
    simp only [memB, Bool.or_eq_true, beq_iff_eq, ih, List.mem_cons]
    exact or_congr_left eq_comm

theorem lookupKey_setKey_self {α : Type _} (d : List (String × α)) (k : String) (v : α) :
    lookupKey (setKey d k v) k = some v := by
  induction d with
  | nil => simp [setKey, lookupKey]
  | cons p rest ih =>
    obtain ⟨k₀, v₀⟩ := p
    by_cases h : k₀ = k
    · simp [setKey, h, lookupKey]
    · simp [setKey, h, lookupKey, ih]

theorem lookupKey_setKey_ne {α : Type _} (d : List (String × α)) (k k' : String) (v : α)
    (h : k ≠ k') : lookupKey (setKey d k v) k' = lookupKey d k' := by
  induction d with
  | nil => simp [setKey, lookupKey, h]
  | cons p rest ih =>
    obtain ⟨k₀, v₀⟩ := p
    by_cases h₀ : k₀ = k
    · subst h₀
      simp [setKey, lookupKey, h]
    · simp [setKey, h₀, lookupKey, ih]

theorem lookup_of_mem_nodup {α : Type _} (d : List (String × α)) (k : String) (v : α)
    (hnd : keysNodupB (d.map Prod.fst) = true) (hm : (k, v) ∈ d) :
    lookupKey d k = some v := by
  induction d with
  | nil => cases hm
  | cons p rest ih =>
    obtain ⟨k₀, v₀⟩ := p
    simp only [List.map_cons, keysNodupB, Bool.and_eq_true, Bool.not_eq_true] at hnd
    rcases List.mem_cons.mp hm with heq | hmem
    · obtain ⟨hk, hv⟩ := Prod.mk.injEq .. ▸ heq
      simp [lookupKey, hk.symm, hv]
    · by_cases hk : k₀ = k
      · exfalso
        subst hk
        have : k₀ ∈ rest.map Prod.fst := List.mem_map_of_mem Prod.fst hmem
        rw [(memB_eq_true_iff k₀ (rest.map Prod.fst)).mpr this] at hnd
        simp at hnd
      · simp [lookupKey, hk, ih hnd.2 hmem]

theorem setKey_eq_of_lookup {α : Type _} (d : List (String × α)) (k : String) (v : α)
    (h : lookupKey d k = some v) : setKey d k v = d := by
  induction d with
  | nil => simp [lookupKey] at h
  | cons p rest ih =>
    obtain ⟨k₀, v₀⟩ := p
    by_cases hk : k₀ = k
    · simp only [lookupKey, hk, if_pos] at h
      obtain rfl : v₀ = v := Option.some.injEq .. ▸ h
      simp [setKey, hk]
    · simp only [lookupKey, hk, if_neg, ite_false] at h
      simp [setKey, hk, ih h]

/-! ## Helper lemmas on case folding -/

theorem lowerCode_lowerCode (n : Nat) : lowerCode (lowerCode n) = lowerCode n := by
  simp only [lowerCode]
  split_ifs <;> omega

theorem upperCode_lowerCode_eq (n : Nat) : upperCode (lowerCode n) = 84 ↔ lowerCode n = 116 := by
  simp only [upperCode, lowerCode]
  split_ifs <;> omega

theorem capitalize_lower_eq_True_iff (l : List Nat) :
    capitalizeCodes (l.map lowerCode) = [84, 114, 117, 101]
      ↔ l.map lowerCode = [116, 114, 117, 101] := by
  cases l with
  | nil => simp [capitalizeCodes]
  | cons c t =>
    have hmm : (t.map lowerCode).map lowerCode = t.map lowerCode := by
      rw [List.map_map]
      have : lowerCode ∘ lowerCode = lowerCode := funext lowerCode_lowerCode
      rw [this]
    simp [capitalizeCodes, hmm, List.cons.injEq, upperCode_lowerCode_eq]

/-! ## Helper lemmas on `mergeItems` -/

theorem mergeItems_self_of_lookup :
    ∀ (n : Nat) (us ds : List (String × PyVal)), sizeOf us ≤ n → wfList us = true →
      (∀ k v, (k, v) ∈ us → lookupKey ds k = some v) →
      mergeItems (.dict ds) us = some (.dict ds) := by
  intro n
  induction n with
  | zero =>
    intro us ds hs _ _
    cases us with
    | nil => simp [mergeItems]
    | cons p rest =>
      exfalso
      rw [List.cons.sizeOf_spec] at hs
      omega
  | succ n ih =>
    intro us ds hs hwf hmem
    cases us with
    | nil => simp [mergeItems]
    | cons p rest =>
      obtain ⟨k, v⟩ := p
      have hlk : lookupKey ds k = some v := hmem k v (List.mem_cons_self _ _)
      have hwf' : wfVal v = true ∧ wfList rest = true := by
        simpa [wfList, Bool.and_eq_true] using hwf
      have hmem' : ∀ k' v', (k', v') ∈ rest → lookupKey ds k' = some v' :=
        fun k' v' hm => hmem k' v' (List.mem_cons_of_mem _ hm)
      have hsz : sizeOf rest ≤ n := by
        rw [List.cons.sizeOf_spec] at hs
        have : 0 < sizeOf (k, v) := by
          rw [Prod.mk.sizeOf_spec]
          omega
        omega
      cases v
      case dict vs =>
        have hveq : (lookupKey ds k).getD (.dict []) = .dict vs := by rw [hlk]; rfl
        have hvs : keysNodupB (vs.map Prod.fst) = true ∧ wfList vs = true := by
          simpa [wfVal, Bool.and_eq_true] using hwf'.1
        have hszv : sizeOf vs ≤ n := by
          rw [List.cons.sizeOf_spec, Prod.mk.sizeOf_spec, PyVal.dict.sizeOf_spec] at hs
          omega
        have hrec : mergeItems (.dict vs) vs = some (.dict vs) :=
          ih vs vs hszv hvs.2 (fun k' v' hm => lookup_of_mem_nodup vs k' v' hvs.1 hm)
        have hset : setKey ds k (.dict vs) = ds := setKey_eq_of_lookup ds k _ hlk
        rw [mergeItems]
        simp only [hveq, hrec, hset]
        exact ih rest ds hsz hwf'.2 hmem'
      all_goals
        simp only [mergeItems, setKey_eq_of_lookup ds k _ hlk]
        exact ih rest ds hsz hwf'.2 hmem'

/-! ## Helper lemmas on `update_from_dict` -/

theorem update_from_dict_ignores_unknown {α : Type _} :
    ∀ (ann : List (String × (α → Except PyErr α))) (kwargs st st' : List (String × α))
      (name : String),
      update_from_dict ann kwargs st = .ok st' →
      memB name (ann.map Prod.fst) = false →
      lookupKey st' name = lookupKey st name := by
  intro ann
  induction ann with
  | nil =>
    intro kwargs st st' name hok _
    obtain rfl : st = st' := by simpa [update_from_dict] using hok
    rfl
  | cons p rest ih =>
    intro kwargs st st' name hok hnm
    obtain ⟨n₀, c₀⟩ := p
    simp only [List.map_cons, memB, Bool.or_eq_false_iff, beq_eq_false_iff_ne] at hnm
    obtain ⟨hne, hnm'⟩ := hnm
    rw [update_from_dict] at hok
    cases hl : lookupKey kwargs n₀ with
    | none =>
      simp only [hl] at hok
      exact ih kwargs st st' name hok hnm'
    | some v₀ =>
      simp only [hl] at hok
      cases hc : c₀ v₀ with
      | ok w =>
        simp only [hc] at hok
        rw [ih (setKey kwargs n₀ w) (setKey st n₀ w) st' name hok hnm']
        exact lookupKey_setKey_ne st n₀ name w hne
      | error e =>
        cases e with
        | typeError =>
          simp only [hc] at hok
          rw [ih kwargs (setKey st n₀ v₀) st' name hok hnm']
          exact lookupKey_setKey_ne st n₀ name v₀ hne
        | valueError => simp [hc] at hok
        | keyError => simp [hc] at hok
        | indexError => simp [hc] at hok
        | attributeError => simp [hc] at hok

theorem update_from_dict_typeError_keeps {α : Type _} :
    ∀ (ann : List (String × (α → Except PyErr α))) (kwargs st st' : List (String × α))
      (name : String) (conv : α → Except PyErr α) (v : α),
      keysNodupB (ann.map Prod.fst) = true →
      update_from_dict ann kwargs st = .ok st' →
      (name, conv) ∈ ann →
      lookupKey kwargs name = some v →
      conv v = .error .typeError →
      lookupKey st' name = some v := by
  intro ann
  induction ann with
  | nil =>
    intro _ _ _ _ _ _ _ _ hm _ _
    cases hm
  | cons p rest ih =>
    intro kwargs st st' name conv v hnd hok hm hlk hconv
    obtain ⟨n₀, c₀⟩ := p
    simp only [List.map_cons, keysNodupB, Bool.and_eq_true, Bool.not_eq_true'] at hnd
    obtain ⟨hn₀, hnd'⟩ := hnd
    rw [update_from_dict] at hok
    rcases List.mem_cons.mp hm with heq | hmem
    · obtain ⟨hn, hc⟩ := Prod.mk.injEq .. ▸ heq
      subst hn
      subst hc
      simp only [hlk, hconv] at hok
      have := update_from_dict_ignores_unknown rest kwargs (setKey st name v) st' name hok hn₀
      rw [this]
      exact lookupKey_setKey_self st name v
    · have hname_ne : n₀ ≠ name := by
        intro h
        subst h
        rw [(memB_eq_true_iff n₀ (rest.map Prod.fst)).mpr
          (List.mem_map_of_mem Prod.fst hmem)] at hn₀
        cases hn₀
      cases hl : lookupKey kwargs n₀ with
      | none =>
        simp only [hl] at hok
        exact ih kwargs st st' name conv v hnd' hok hmem hlk hconv
      | some v₀ =>
        simp only [hl] at hok
        cases hc : c₀ v₀ with
        | ok w =>
          simp only [hc] at hok
          have hlk' : lookupKey (setKey kwargs n₀ w) name = some v := by
            rw [lookupKey_setKey_ne kwargs n₀ name w hname_ne]
            exact hlk
          exact ih (setKey kwargs n₀ w) (setKey st n₀ w) st' name conv v hnd' hok hmem hlk' hconv
        | error e =>
          cases e with
          | typeError =>
            simp only [hc] at hok
            exact ih kwargs (setKey st n₀ v₀) st' name conv v hnd' hok hmem hlk hconv
          | valueError => simp [hc] at hok
          | keyError => simp [hc] at hok
          | indexError => simp [hc] at hok
          | attributeError => simp [hc] at hok

/-! ## Helper lemma for the alias-injection loop -/

theorem foldl_alias_id {α : Type _} (keys : List String) :
    ∀ d : List (String × α),
      (∀ k ∈ keys, strContains k "basis_ecorr" = true) →
      keys.foldl
        (fun d par =>
          if strContains par "log10_ecorr" && !strContains par "basis_ecorr" then
            match lookupKey d par with
            | some v => setKey d (ecorrAliasKey par) v
            | none => d
          else d)
        d = d := by
  induction keys with
  | nil =>
    intro d _
    rfl
  | cons k rest ih =>
    intro d h
    have hk := h k (List.mem_cons_self _ _)
    simp only [List.foldl_cons, hk, Bool.not_true, Bool.and_false, Bool.false_eq_true,
      if_false]
    exact ih d (fun k' hm => h k' (List.mem_cons_of_mem _ hm))

/-! ## Claim theorems -/

/-- C2: for every raw string whose key has declared type `bool`, the coercion
of `apply_types` (lines 192-194, embedded as `pyBoolCoerce`) yields `true` if
and only if the case-normalized (`lower()`ed) form of the string is exactly
the token `"true"`; every other input — including `"false"`, `"True "` with a
trailing space, `"1"`, and `""` — coerces to `false`. -/
theorem claim2_bool_coercion (s : String) :
    (pyBoolCoerce s = true ↔ lowerStrCodes s = strCodes "true")
    ∧ pyBoolCoerce "false" = false
    ∧ pyBoolCoerce "True " = false
    ∧ pyBoolCoerce "1" = false
    ∧ pyBoolCoerce "" = false
    ∧ pyBoolCoerce "true" = true
    ∧ pyBoolCoerce "TRUE" = true := by
  refine ⟨?_, by decide, by decide, by decide, by decide, by decide, by decide⟩
  have h1 : strCodes "True" = [84, 114, 117, 101] := by decide
  have h2 : strCodes "true" = [116, 114, 117, 101] := by decide
  simp only [pyBoolCoerce, lowerStrCodes, h1, h2, beq_iff_eq]
  exact capitalize_lower_eq_True_iff (strCodes s)

/-- Witness for C2: a mixed-case string is accepted as true, and its
case-normalized form is exactly `"true"`. -/
theorem claim2_witness :
    pyBoolCoerce "tRuE" = true ∧ lowerStrCodes "tRuE" = strCodes "true" :=
  ⟨(claim2_bool_coercion "tRuE").1.mpr (by decide), by decide⟩

/-- C4: when no full-model (pta) factory and no signal-fragment factory is
registered, the fragment list built by `create_pta_object_from_signals`
(lines 238-243) is empty and the summation step fails (`signal_collections[0]`
raises `IndexError`, the spec's `CompositionError`) rather than producing a
model. -/
theorem claim4_empty_fragment_error {α : Type _} (op : α → α → α) :
    create_pta_object_from_signals op ([] : List α) [] = .error .indexError := rfl

/-- Witness for C4 at a concrete fragment type and operator. -/
theorem claim4_witness :
    create_pta_object_from_signals (fun a b : Nat => a + b) [] [] = .error .indexError :=
  claim4_empty_fragment_error (fun a b : Nat => a + b)

/-- C5: during composition (line 243), all fragments are summed by a
left-to-right fold seeded with the first fragment, and the fold order is the
fragments from full-model factories first (registration order) followed by the
fragments from direct signal factories (registration order). -/
theorem claim5_fold_order {α : Type _} (op : α → α → α) (ptaFrags sigFrags : List α)
    (h : α) (t : List α) (heq : ptaFrags ++ sigFrags = h :: t) :
    create_pta_object_from_signals op ptaFrags sigFrags = .ok (t.foldl op h) := by
  simp [create_pta_object_from_signals, signal_collections_list, heq]

/-- Witness for C5 at concrete fragment lists. -/
theorem claim5_witness :
    ([10, 20] : List Nat) ++ [30] = 10 :: [20, 30]
    ∧ create_pta_object_from_signals (fun a b => a + b) ([10, 20] : List Nat) [30]
        = .ok (([20, 30] : List Nat).foldl (fun a b => a + b) 10) :=
  ⟨rfl, claim5_fold_order (fun a b => a + b) [10, 20] [30] 10 [20, 30] rfl⟩

/-- C8: for a key declared as a one-dimensional numeric array, the raw string
`"1.0,2.5,3"` coerces (line 191, embedded as `coerceNdarray`) to the
three-element vector `[1.0, 2.5, 3.0]`; a trailing comma or a non-numeric
element raises `ValueError` (the spec's `CoercionError`) instead of returning
a vector. -/
theorem claim8_ndarray_coercion :
    coerceNdarray "1.0,2.5,3" = .ok [1, 5/2, 3]
    ∧ coerceNdarray "1.0,2.5," = .error .valueError
    ∧ coerceNdarray "1.0,abc,3" = .error .valueError := by
  refine ⟨?_, ?_, ?_⟩
  · simp [coerceNdarray, splitOnComma, splitCharL, parseFloatListE, parseFloatL, parseFloatCore,
      parseExpTail, digitsVal, List.takeWhile, List.dropWhile]
    norm_num
  · simp [coerceNdarray, splitOnComma, splitCharL, parseFloatListE, parseFloatL, parseFloatCore,
      parseExpTail, digitsVal, List.takeWhile, List.dropWhile]
  · simp [coerceNdarray, splitOnComma, splitCharL, parseFloatListE, parseFloatL, parseFloatCore,
      parseExpTail, digitsVal, List.takeWhile, List.dropWhile]

/-- C9 (code bug): a `function` section with none of the three return
directives does fail (lines 131-135 raise `AttributeError`), but the message
names `signal_function` / `pta_function` — keys the dispatch never accepts —
instead of the actually recognized `signal_return` / `pta_return`, so the
message does not name the three valid directives. -/
theorem claim9_missing_directive_message :
    dispatch_function_section ["function", "module"]
        = .attrError function_missing_directive_msg
    ∧ dispatch_function_section ["function", "module", "custom_return"] = .customReturn
    ∧ dispatch_function_section ["function", "module", "signal_return"] = .signalReturn
    ∧ dispatch_function_section ["function", "module", "pta_return"] = .ptaReturn
    ∧ strContains function_missing_directive_msg "custom_return" = true
    ∧ strContains function_missing_directive_msg "signal_return" = false
    ∧ strContains function_missing_directive_msg "pta_return" = false
    ∧ strContains function_missing_directive_msg "signal_function" = true
    ∧ strContains function_missing_directive_msg "pta_function" = true := by
  decide

/-- C1: `apply_types` (lines 168-196) checks each key/value in the fixed
priority order — excluded key, `CUSTOM_FUNCTION_RETURN:` marker,
`CUSTOM_CLASS:` marker, `FUNCTION_CALL:` marker, key missing from the type
dictionary, declared-type coercion — and the first matching rule wins.  In
particular (third conjunct) a value containing a custom-class marker is
resolved as the class reference for every type dictionary, even one declaring
the key as a numeric vector, so it is never coerced as a vector; the last
conjunct shows vector coercion fires only when no marker matched. -/
theorem claim1_apply_types_priority (st : CoercerState) (evalf : String → PyVal)
    (types : List (String × PyType)) (exclude_keys : List String) (key value : String)
    (v c : PyVal) (xs : List Rat) :
    (memB key exclude_keys = true →
      apply_types st evalf [(key, value)] types exclude_keys = .ok [])
    ∧ (memB key exclude_keys = false →
        strContains value "CUSTOM_FUNCTION_RETURN:" = true →
        lookupKey st.custom_function_return (pyReplace value "CUSTOM_FUNCTION_RETURN:" "")
            = some v →
        apply_types st evalf [(key, value)] types exclude_keys = .ok [(key, v)])
    ∧ (memB key exclude_keys = false →
        strContains value "CUSTOM_FUNCTION_RETURN:" = false →
        strContains value "CUSTOM_CLASS:" = true →
        lookupKey st.custom_classes (pyReplace value "CUSTOM_CLASS:" "") = some c →
        apply_types st evalf [(key, value)] types exclude_keys = .ok [(key, c)])
    ∧ (memB key exclude_keys = false →
        strContains value "CUSTOM_FUNCTION_RETURN:" = false →
        strContains value "CUSTOM_CLASS:" = false →
        strContains value "FUNCTION_CALL:" = true →
        apply_types st evalf [(key, value)] types exclude_keys
            = .ok [(key, evalf (pyReplace value "FUNCTION_CALL:" ""))])
    ∧ (memB key exclude_keys = false →
        strContains value "CUSTOM_FUNCTION_RETURN:" = false →
        strContains value "CUSTOM_CLASS:" = false →
        strContains value "FUNCTION_CALL:" = false →
        lookupKey types key = none →
        apply_types st evalf [(key, value)] types exclude_keys = .ok [])
    ∧ (memB key exclude_keys = false →
        strContains value "CUSTOM_FUNCTION_RETURN:" = false →
        strContains value "CUSTOM_CLASS:" = false →
        strContains value "FUNCTION_CALL:" = false →
        lookupKey types key = some .ndarray →
        coerceNdarray value = .ok xs →
        apply_types st evalf [(key, value)] types exclude_keys = .ok [(key, .arr xs)]) := by
  refine ⟨?_, ?_, ?_, ?_, ?_, ?_⟩
  · intro h1
    simp [apply_types, applyTypesGo, h1]
  · intro h1 h2 h3
    simp [apply_types, applyTypesGo, h1, h2, h3, setKey]
  · intro h1 h2 h3 h4
    simp [apply_types, applyTypesGo, h1, h2, h3, h4, setKey]
  · intro h1 h2 h3 h4
    simp [apply_types, applyTypesGo, h1, h2, h3, h4, setKey]
  · intro h1 h2 h3 h4 h5
    simp [apply_types, applyTypesGo, h1, h2, h3, h4, h5]
  · intro h1 h2 h3 h4 h5 h6
    simp [apply_types, applyTypesGo, h1, h2, h3, h4, h5, h6, setKey]

/-- Witness for C1: a value carrying a custom-class marker and a comma, whose
key the type dictionary declares as `ndarray`, resolves to the registered
class instance rather than a vector. -/
theorem claim1_witness :
    apply_types ⟨[], [("a,b", .obj "inst")]⟩ (fun _ => .int 0) [("k", "CUSTOM_CLASS:a,b")]
        [("k", .ndarray)] ["module"] = .ok [("k", .obj "inst")] :=
  (claim1_apply_types_priority ⟨[], [("a,b", .obj "inst")]⟩ (fun _ => .int 0)
      [("k", .ndarray)] ["module"] "k" "CUSTOM_CLASS:a,b" (.int 0) (.obj "inst") []).2.2.1
    (by decide) (by decide) (by decide) rfl

/-- C6: a `CUSTOM_CLASS:` (or `CUSTOM_FUNCTION_RETURN:`) directive whose label
is not yet present in the corresponding registry — which is exactly the state
of a forward reference to a section that has not been processed yet, since
sections are processed in document order — makes `apply_types`
(lines 172-179) fail with `KeyError` (the spec's `UnresolvedReferenceError`)
instead of returning a value. -/
theorem claim6_unresolved_reference (st : CoercerState) (evalf : String → PyVal)
    (types : List (String × PyType)) (exclude_keys : List String) (key value : String)
    (rest : List (String × String)) :
    (memB key exclude_keys = false →
      strContains value "CUSTOM_FUNCTION_RETURN:" = true →
      lookupKey st.custom_function_return (pyReplace value "CUSTOM_FUNCTION_RETURN:" "")
          = none →
      apply_types st evalf ((key, value) :: rest) types exclude_keys = .error .keyError)
    ∧ (memB key exclude_keys = false →
        strContains value "CUSTOM_FUNCTION_RETURN:" = false →
        strContains value "CUSTOM_CLASS:" = true →
        lookupKey st.custom_classes (pyReplace value "CUSTOM_CLASS:" "") = none →
        apply_types st evalf ((key, value) :: rest) types exclude_keys
            = .error .keyError) := by
  constructor
  · intro h1 h2 h3
    simp [apply_types, applyTypesGo, h1, h2, h3]
  · intro h1 h2 h3 h4
    simp [apply_types, applyTypesGo, h1, h2, h3, h4]

/-- Witness for C6: an empty `custom_classes` registry (no earlier section
produced `section2`) makes the directive fail with `KeyError`. -/
theorem claim6_witness :
    apply_types ⟨[], []⟩ (fun _ => .int 0) [("k", "CUSTOM_CLASS:section2")] [] ["module"]
        = .error .keyError :=
  (claim6_unresolved_reference ⟨[], []⟩ (fun _ => .int 0) [] ["module"] "k"
      "CUSTOM_CLASS:section2" []).2 (by decide) (by decide) (by decide) rfl

/-- C3 counterexample: after loading a noise dictionary containing the key
`"J1909-3744_log10_ecorr_wide"`, the key `"J1909-3744_basis_ecorr_wide"`
claimed by the spec does **not** exist — line 224 keeps the whole original
suffix after the pulsar name, so the synthesized key is
`"J1909-3744_basis_ecorr_log10_ecorr_wide"`. -/
theorem claim3_counterexample :
    lookupKey
        (load_pickled_pulsars_noise_aliases [("J1909-3744_log10_ecorr_wide", (1 : Int))])
        "J1909-3744_basis_ecorr_wide" = none := by
  decide

/-- C3 (amended): after loading, the key `"J1909-3744_log10_ecorr_wide"`
yields the new alias key `"J1909-3744_basis_ecorr_log10_ecorr_wide"`
(`basis_ecorr` spliced in after the pulsar name, retaining the full original
suffix) mapped to the identical value; and no alias is synthesized for any
noise-parameter key that already contains the `basis_ecorr` marker. -/
theorem claim3_amended_alias_injection (nd : List (String × Int))
    (hbasis : ∀ par ∈ nd.map Prod.fst, strContains par "basis_ecorr" = true) :
    load_pickled_pulsars_noise_aliases [("J1909-3744_log10_ecorr_wide", (1 : Int))]
        = [("J1909-3744_log10_ecorr_wide", 1),
           ("J1909-3744_basis_ecorr_log10_ecorr_wide", 1)]
    ∧ load_pickled_pulsars_noise_aliases nd = nd := by
  constructor
  · decide
  · unfold load_pickled_pulsars_noise_aliases
    exact foldl_alias_id (nd.map Prod.fst) nd hbasis

/-- Witness for C3 (amended): a dictionary whose only key already contains
`basis_ecorr` is left unchanged. -/
theorem claim3_witness :
    load_pickled_pulsars_noise_aliases [("J1909_basis_ecorr_log10_ecorr", (2 : Int))]
        = [("J1909_basis_ecorr_log10_ecorr", 2)] :=
  (claim3_amended_alias_injection [("J1909_basis_ecorr_log10_ecorr", (2 : Int))]
    (by decide)).2

/-- C7: `update_dictionary_with_subdictionary` (lines 32-42) merges any
dictionary (with the pairwise-distinct keys every Python dictionary has) with
itself to an equal dictionary; for colliding scalar keys the overlay value
wins; and nested dictionaries under the same key are merged recursively. -/
theorem claim7_dict_merge (d : List (String × PyVal)) (hwf : wfVal (.dict d) = true) :
    update_dictionary_with_subdictionary d d = some d
    ∧ update_dictionary_with_subdictionary [("a", .int 1)] [("a", .int 2)]
        = some [("a", .int 2)]
    ∧ update_dictionary_with_subdictionary
        [("a", .dict [("x", .int 1)])] [("a", .dict [("y", .int 2)])]
        = some [("a", .dict [("x", .int 1), ("y", .int 2)])] := by
  refine ⟨?_, ?_, ?_⟩
  · have hh : keysNodupB (d.map Prod.fst) = true ∧ wfList d = true := by
      simpa [wfVal, Bool.and_eq_true] using hwf
    have hm := mergeItems_self_of_lookup (sizeOf d) d d le_rfl hh.2
      (fun k v hmem => lookup_of_mem_nodup d k v hh.1 hmem)
    simp [update_dictionary_with_subdictionary, hm]
  · simp [update_dictionary_with_subdictionary, mergeItems, setKey]
  · simp [update_dictionary_with_subdictionary, mergeItems, setKey, lookupKey]

/-- Witness for C7 at a concrete two-key dictionary. -/
theorem claim7_witness :
    update_dictionary_with_subdictionary
        [("a", .int 1), ("b", .dict [("x", .str "y")])]
        [("a", .int 1), ("b", .dict [("x", .str "y")])]
      = some [("a", .int 1), ("b", .dict [("x", .str "y")])] :=
  (claim7_dict_merge [("a", .int 1), ("b", .dict [("x", .str "y")])]
    (by simp [wfVal, wfList, keysNodupB, memB])).1

/-- A converter that always raises `TypeError`, used by the witness of C10. -/
def intConvTypeErr : Int → Except PyErr Int := fun _ => .error .typeError

/-- C10: in `update_from_dict` (lines 200-208), for every annotated field
present in the supplied keyword arguments whose declared-type conversion
raises `TypeError`, the exception is suppressed and the original unconverted
value is assigned to the field; supplied keys that are not annotated fields
are ignored and leave the state unchanged. -/
theorem claim10_update_from_dict {α : Type _}
    (ann : List (String × (α → Except PyErr α))) (kwargs st st' : List (String × α))
    (name : String) (conv : α → Except PyErr α) (v : α)
    (hnd : keysNodupB (ann.map Prod.fst) = true)
    (hok : update_from_dict ann kwargs st = .ok st') :
    ((name, conv) ∈ ann → lookupKey kwargs name = some v →
      conv v = .error .typeError → lookupKey st' name = some v)
    ∧ (memB name (ann.map Prod.fst) = false →
        lookupKey st' name = lookupKey st name) :=
  ⟨fun hm hlk hconv =>
      update_from_dict_typeError_keeps ann kwargs st st' name conv v hnd hok hm hlk hconv,
    fun hn => update_from_dict_ignores_unknown ann kwargs st st' name hok hn⟩

/-- Witness for C10: the field `config_file` keeps the raw value `5` after its
converter raises `TypeError`, and the unannotated key `junk` leaves the state
untouched. -/
theorem claim10_witness :
    lookupKey [("config_file", (5 : Int)), ("other", 9)] "config_file" = some 5
    ∧ lookupKey [("config_file", (5 : Int)), ("other", 9)] "junk"
        = lookupKey [("config_file", (0 : Int)), ("other", 9)] "junk" :=
  ⟨(claim10_update_from_dict [("config_file", intConvTypeErr)]
        [("config_file", 5), ("junk", 7)] [("config_file", 0), ("other", 9)]
        [("config_file", 5), ("other", 9)] "config_file" intConvTypeErr 5
        (by decide) rfl).1
      (List.mem_singleton.mpr rfl) rfl rfl,
    (claim10_update_from_dict [("config_file", intConvTypeErr)]
        [("config_file", 5), ("junk", 7)] [("config_file", 0), ("other", 9)]
        [("config_file", 5), ("other", 9)] "junk" intConvTypeErr 5
        (by decide) rfl).2 (by decide)⟩

end EnterprisePipe


